import Mathlib

/-!
Shallow embedding of the redox-os `event` crate.

The crate has two variants of the same user-space event-queue API:
* `src/lib.rs` ("Scheme" below): a queue backed by the `event:` scheme file;
  subscriptions are `syscall::data::Event` records written to the file, and
  readiness records are read back one at a time, with EINTR retried in a loop.
* `src/raw.rs` + `src/wrappers.rs` ("Ffi" below): a queue backed by the
  `redox_event_queue_*_v1` FFI surface; subscriptions go through a `ctl` call
  and readiness records are `RawEventV1` values returned by a `get_events`
  call.

Machine integers are modelled as `Nat`; flag sets as their bit patterns.
The kernel channel is modelled explicitly: writes by the response the channel
gives plus the trace of records passed to `write`, reads by a list of read
outcomes consumed in order.
-/

deriving instance DecidableEq for Except

namespace RedoxEvent

/-- Error numbers (`libredox::error::Error` carries an errno). -/
abbrev Errno := Nat

/-- errno of an interrupted system call, matched by `errno::EINTR` in
`lib.rs`. -/
def EINTR : Errno := 4

/-- bitflags `contains`: every bit of `other` is present in `self`. -/
def containsBits (self other : Nat) : Bool :=
  self &&& other == other

/-- Bit mask of the 64-bit word backing the `usize` bitflags types. -/
def wordMask : Nat := 2 ^ 64 - 1

/-- bitflags `set`: insert the mask when the Bool is true, remove it (bitwise
and with its complement) when false. -/
def setBits (self mask : Nat) (b : Bool) : Nat :=
  if b then self ||| mask else self &&& (wordMask ^^^ mask)

/-- `write(...)?; Ok(())`: the error of the channel's write response is
propagated, a success count is discarded. -/
def writeUnit : Except Errno Nat → Except Errno Unit
  | Except.ok _ => Except.ok ()
  | Except.error e => Except.error e

/-- The in-memory typed event (`Event<U>` in both variants): fields
`user_data`, `flags`, `fd` in source order. -/
structure EventT (U : Type) where
  user_data : U
  flags : Nat
  fd : Nat

namespace Scheme

/-- `EventFlags::READ` of `lib.rs` (bitflags over usize). -/
def EventFlags.READ : Nat := 1

/-- `EventFlags::WRITE` of `lib.rs`. -/
def EventFlags.WRITE : Nat := 2

/-- `syscall::EventFlags::EVENT_READ`; `lib.rs` statically asserts its bits
equal `EventFlags::READ`. -/
def SysFlags.EVENT_READ : Nat := 1

/-- `syscall::EventFlags::EVENT_WRITE`; statically asserted equal to
`EventFlags::WRITE`. -/
def SysFlags.EVENT_WRITE : Nat := 2

/-- `impl From<EventFlags> for syscall::flag::EventFlags` (lib.rs:32-39).
The source sets `EVENT_READ` from `value.contains(READ)` and `EVENT_WRITE`
from `value.contains(READ)` as well - the `READ` in the second line is kept
exactly as written in the source. -/
def eventFlagsToSyscall (v : Nat) : Nat :=
  setBits (setBits 0 SysFlags.EVENT_READ (containsBits v EventFlags.READ))
    SysFlags.EVENT_WRITE (containsBits v EventFlags.READ)

/-- `impl From<syscall::flag::EventFlags> for EventFlags` (lib.rs:24-31):
start from empty, set `READ` iff `EVENT_READ` is contained, set `WRITE` iff
`EVENT_WRITE` is contained. -/
def eventFlagsFromSyscall (v : Nat) : Nat :=
  setBits (setBits 0 EventFlags.READ (containsBits v SysFlags.EVENT_READ))
    EventFlags.WRITE (containsBits v SysFlags.EVENT_WRITE)

/-- `syscall::data::Event`: the fixed-size record written to and read from the
`event:` file, fields `id`, `flags`, `data`. -/
structure SysEvent where
  id : Nat
  flags : Nat
  data : Nat
deriving Repr, DecidableEq

/-- `RawEvent` of `lib.rs`: fields `fd`, `flags`, `user_data`. -/
structure RawEvent where
  fd : Nat
  flags : Nat
  user_data : Nat
deriving Repr, DecidableEq

/-- `RawEventQueue::subscribe(fd, user_data, flags)` (lib.rs:59-66): one
`write` of `Event { id: fd, data: user_data, flags: flags.into() }` on the
queue fd. The model takes the channel's response to that write; it returns
the `Result` the function returns together with the list of records passed
to `write` (always exactly the one record). -/
def RawEventQueue.subscribe (writeResult : Except Errno Nat)
    (fd userData flags : Nat) : Except Errno Unit × List SysEvent :=
  (writeUnit writeResult,
    [{ id := fd, data := userData, flags := eventFlagsToSyscall flags }])

/-- `RawEventQueue::unsubscribe(fd, flags)` (lib.rs:68-75): one `write` of
`Event { id: fd, flags: flags.into(), data: 0 }`. -/
def RawEventQueue.unsubscribe (writeResult : Except Errno Nat)
    (fd flags : Nat) : Except Errno Unit × List SysEvent :=
  (writeUnit writeResult,
    [{ id := fd, flags := eventFlagsToSyscall flags, data := 0 }])

/-- One outcome of a `read` on the queue fd: `Ok(0)` (eof), `Ok(n)` with a
record filled in, or `Err(e)`. -/
inductive ReadOutcome where
  | eof
  | filled (ev : SysEvent)
  | err (e : Errno)
deriving Repr, DecidableEq

/-- The conversion applied by `Iterator::next` (lib.rs:89-93) to a record that
was read: `RawEvent { fd: event.id, flags: event.flags.into(), user_data:
event.data }`. -/
def decodeRaw (ev : SysEvent) : RawEvent :=
  { fd := ev.id, flags := eventFlagsFromSyscall ev.flags, user_data := ev.data }

/-- `Iterator::next` for `RawEventQueue` (lib.rs:81-99): loop reading the fd;
`Ok(0)` ends the iterator (`None`), `Ok(n)` yields the decoded record,
`Err(EINTR)` continues the loop, any other error is yielded. The channel is
the list of pending read outcomes; the result pairs the iterator's answer
with the outcomes left unconsumed, and is `none` (no answer) when the loop
never returns within the modelled outcomes. -/
def RawEventQueue.next :
    List ReadOutcome → Option (Option (Except Errno RawEvent) × List ReadOutcome)
  | [] => none
  | ReadOutcome.eof :: rest => some (none, rest)
  | ReadOutcome.filled ev :: rest => some (some (Except.ok (decodeRaw ev)), rest)
  | ReadOutcome.err e :: rest =>
    if e = EINTR then RawEventQueue.next rest
    else some (some (Except.error e), rest)

/-- Repeatedly call `RawEventQueue.next` (at most `fuel` times), collecting
the yielded items until the iterator ends or blocks. -/
def collectFuel : Nat → List ReadOutcome → List (Except Errno RawEvent)
  | 0, _ => []
  | Nat.succ fuel, l =>
    match RawEventQueue.next l with
    | none => []
    | some (none, _) => []
    | some (some x, rest) => x :: collectFuel fuel rest

/-- All items the iterator yields from a finite channel: each `next` call
consumes at least one outcome, so `l.length` calls suffice. -/
def collect (l : List ReadOutcome) : List (Except Errno RawEvent) :=
  collectFuel l.length l

/-- Drop the leading `Err(EINTR)` outcomes of a channel: the reads the loop
in `next` retries past. -/
def skipEintr : List ReadOutcome → List ReadOutcome
  | [] => []
  | ReadOutcome.err e :: rest =>
    if e = EINTR then skipEintr rest else ReadOutcome.err e :: rest
  | x :: rest => x :: rest

/-- `EventQueue::<U>::subscribe(fd, data, flags)` (lib.rs:175-177): delegate
to `RawEventQueue::subscribe(fd, data.into_user_data(), flags)`. -/
def EventQueue.subscribe {U : Type} (into : U → Nat)
    (writeResult : Except Errno Nat) (fd : Nat) (data : U) (flags : Nat) :
    Except Errno Unit × List SysEvent :=
  RawEventQueue.subscribe writeResult fd (into data) flags

/-- `Iterator::next` for `EventQueue<U>` (lib.rs:186-192): map the raw item,
building `Event { user_data: U::from_user_data(raw.user_data), fd: raw.fd,
flags: raw.flags }`. -/
def EventQueue.next {U : Type} (fromU : Nat → U) (l : List ReadOutcome) :
    Option (Option (Except Errno (EventT U)) × List ReadOutcome) :=
  match RawEventQueue.next l with
  | none => none
  | some (res, rest) =>
    some (Option.map (Except.map (fun raw =>
      { user_data := fromU raw.user_data, fd := raw.fd, flags := raw.flags })) res,
      rest)

end Scheme

namespace Ffi

/-- `EventFlags::READ` of `raw.rs` (bitflags over u32). -/
def EventFlags.READ : Nat := 1

/-- `EventFlags::WRITE` of `raw.rs`. -/
def EventFlags.WRITE : Nat := 2

/-- `RawEventV1` of `raw.rs`: fields `fd: usize`, `user_data: usize`,
`flags: u32`, in that declaration order (`repr(C)`). -/
structure RawEventV1 where
  fd : Nat
  user_data : Nat
  flags : Nat
deriving Repr, DecidableEq

/-- Declared layout of `RawEventV1` as (field, bit width) pairs in
declaration order; `wordBits` is the width of `usize`. -/
def rawEventV1Layout (wordBits : Nat) : List (String × Nat) :=
  [("fd", wordBits), ("user_data", wordBits), ("flags", 32)]

/-- Modelled from the spec: the record shape the spec states,
`{source-id: word-size, flags: 32-bit, tag: word-size}` in that layout,
with the spec's `source-id` and `tag` written as the crate's field names
`fd` and `user_data`. -/
def specRecordLayout (wordBits : Nat) : List (String × Nat) :=
  [("fd", wordBits), ("flags", 32), ("user_data", wordBits)]

/-- One `redox_event_queue_ctl_v1(queue, fd, flags, user_data)` call as
issued by `wrappers.rs`. -/
structure CtlCall where
  fd : Nat
  flags : Nat
  user_data : Nat
deriving Repr, DecidableEq

/-- `RawEventQueue::subscribe(fd, user_data, flags)` (wrappers.rs:20-25): one
`ctl` call with `(fd, flags.bits(), user_data)`; the demuxed result's error
is propagated, a success value discarded. Returns the `Result` and the trace
of ctl calls. -/
def RawEventQueue.subscribe (ctlResult : Except Errno Nat)
    (fd userData flagsBits : Nat) : Except Errno Unit × List CtlCall :=
  (writeUnit ctlResult, [{ fd := fd, flags := flagsBits, user_data := userData }])

/-- `RawEventQueue::unsubscribe(fd)` (wrappers.rs:27-30):
`self.subscribe(fd, 0, EventFlags::empty())`. -/
def RawEventQueue.unsubscribe (ctlResult : Except Errno Nat) (fd : Nat) :
    Except Errno Unit × List CtlCall :=
  RawEventQueue.subscribe ctlResult fd 0 0

/-- The demuxed outcome of one `redox_event_queue_get_events_v1` call with a
one-record buffer: a count with the record the kernel filled in, or an
error. -/
inductive GetEventsOutcome where
  | ok (count : Nat) (ev : RawEventV1)
  | err (e : Errno)
deriving Repr, DecidableEq

/-- `RawEventQueue::next_event` (wrappers.rs:32-47): an error from the call is
returned; on success the code asserts the count equals 1 and returns the
record. `none` models the assertion failing (the function does not return)
when the count is not 1. -/
def RawEventQueue.next_event :
    GetEventsOutcome → Option (Except Errno RawEventV1)
  | GetEventsOutcome.err e => some (Except.error e)
  | GetEventsOutcome.ok n ev =>
    if n = 1 then some (Except.ok ev) else none

/-- `Iterator::next` for the wrapper `RawEventQueue` (wrappers.rs:61-63):
`Some(self.next_event())`. Outer `none` models `next_event` not returning;
otherwise the iterator item is always `some` (the iterator never ends). -/
def iterNext (o : GetEventsOutcome) :
    Option (Option (Except Errno RawEventV1)) :=
  Option.map some (RawEventQueue.next_event o)

/-- `EventQueue::<U>::subscribe` (wrappers.rs:139-141): delegate to
`RawEventQueue::subscribe(fd, data.into_user_data(), flags)`. -/
def EventQueue.subscribe {U : Type} (into : U → Nat)
    (ctlResult : Except Errno Nat) (fd : Nat) (data : U) (flagsBits : Nat) :
    Except Errno Unit × List CtlCall :=
  RawEventQueue.subscribe ctlResult fd (into data) flagsBits

/-- `Iterator::next` for the wrapper `EventQueue<U>` (wrappers.rs:150-158):
map the raw item to `Event { user_data: U::from_user_data(raw.user_data),
fd: raw.fd, flags: EventFlags::from_bits_retain(raw.flags) }`;
`from_bits_retain` keeps the bits unchanged. -/
def EventQueue.next {U : Type} (fromU : Nat → U) (o : GetEventsOutcome) :
    Option (Option (Except Errno (EventT U))) :=
  Option.map (Option.map (Except.map (fun raw =>
    { user_data := fromU raw.user_data, fd := raw.fd, flags := raw.flags })))
    (iterNext o)

end Ffi

/-- `into_user_data` generated by the `user_data!` macro for an enum with `n`
variants (`repr(usize)`, no explicit discriminants): the i-th variant, here a
`Fin n`, is cast to its ordinal. -/
def intoUserData {n : Nat} (v : Fin n) : Nat :=
  v.val

/-- `from_user_data(raw)` generated by the `user_data!` macro: assert
`raw < n` (the length of the array of all variants) and transmute `raw` to
the variant with ordinal `raw`; `none` models the assertion failing. -/
def fromUserData (n raw : Nat) : Option (Fin n) :=
  if h : raw < n then some (Fin.mk raw h) else none

namespace Scheme

/-- Modelled from the spec: the claimed behaviour of the typed subscribe,
`RawEventQueue::subscribe(fd, into_user_data(data), flags)`. -/
def claimTypedSubscribe {U : Type} (into : U → Nat)
    (writeResult : Except Errno Nat) (fd : Nat) (data : U) (flags : Nat) :
    Except Errno Unit × List SysEvent :=
  RawEventQueue.subscribe writeResult fd (into data) flags

/-- Modelled from the spec: the claimed behaviour of the typed iterator, the
raw item with `from_user_data` applied to its `user_data` and the `fd` and
`flags` fields unchanged. -/
def claimTypedNext {U : Type} (fromU : Nat → U) (l : List ReadOutcome) :
    Option (Option (Except Errno (EventT U)) × List ReadOutcome) :=
  Option.map (fun p =>
    (Option.map (Except.map (fun raw : RawEvent =>
      { user_data := fromU raw.user_data, flags := raw.flags, fd := raw.fd })) p.1,
     p.2))
    (RawEventQueue.next l)

end Scheme

lemma and_one_toNat (v : Nat) : v &&& 1 = (v.testBit 0).toNat := by
  simpa using Nat.and_two_pow v 0

lemma and_two_toNat (v : Nat) : v &&& 2 = (v.testBit 1).toNat * 2 := by
  simpa using Nat.and_two_pow v 1

lemma and_three_split (v : Nat) :
    v &&& 3 = (v.testBit 0).toNat ||| (v.testBit 1).toNat * 2 := by
  have h : (3 : Nat) = 1 ||| 2 := by decide
  rw [h, Nat.and_or_distrib_left, and_one_toNat, and_two_toNat]

/-- The scheme-side conversion from kernel flags keeps exactly the low two
bits: it equals bitwise and with `READ ||| WRITE = 3`. -/
lemma flagsFrom_eq (v : Nat) : Scheme.eventFlagsFromSyscall v = v &&& 3 := by
  have h0 := and_one_toNat v
  have h1 := and_two_toNat v
  rw [and_three_split]
  unfold Scheme.eventFlagsFromSyscall setBits containsBits
  cases hb0 : v.testBit 0 <;> cases hb1 : v.testBit 1 <;>
    simp [Scheme.EventFlags.READ, Scheme.EventFlags.WRITE,
      Scheme.SysFlags.EVENT_READ, Scheme.SysFlags.EVENT_WRITE,
      h0, h1, hb0, hb1]
  all_goals decide

/-- `RawEventQueue.next` seen through `skipEintr`: the loop behaves exactly
like one non-retried read on the channel with its leading EINTR outcomes
dropped. -/
lemma next_eq_skip (l : List Scheme.ReadOutcome) :
    Scheme.RawEventQueue.next l =
      match Scheme.skipEintr l with
      | [] => none
      | Scheme.ReadOutcome.eof :: rest => some (none, rest)
      | Scheme.ReadOutcome.filled ev :: rest =>
        some (some (Except.ok (Scheme.decodeRaw ev)), rest)
      | Scheme.ReadOutcome.err e :: rest =>
        some (some (Except.error e), rest) := by
  induction l with
  | nil => simp [Scheme.RawEventQueue.next, Scheme.skipEintr]
  | cons x rest ih =>
    cases x with
    | eof => simp [Scheme.RawEventQueue.next, Scheme.skipEintr]
    | filled ev => simp [Scheme.RawEventQueue.next, Scheme.skipEintr]
    | err e =>
      by_cases he : e = EINTR
      · simpa [Scheme.RawEventQueue.next, Scheme.skipEintr, he] using ih
      · simp [Scheme.RawEventQueue.next, Scheme.skipEintr, he]

/-- The head of a skipped channel is never an EINTR error. -/
lemma skipEintr_head_err (l : List Scheme.ReadOutcome) (e : Errno)
    (rest : List Scheme.ReadOutcome)
    (h : Scheme.skipEintr l = Scheme.ReadOutcome.err e :: rest) : e ≠ EINTR := by
  induction l with
  | nil => simp [Scheme.skipEintr] at h
  | cons x tl ih =>
    cases x with
    | eof => simp [Scheme.skipEintr] at h
    | filled ev => simp [Scheme.skipEintr] at h
    | err e0 =>
      by_cases he : e0 = EINTR
      · exact ih (by simpa [Scheme.skipEintr, he] using h)
      · rw [Scheme.skipEintr] at h
        simp [he] at h
        exact h.1 ▸ he

/-- Every successful item the raw iterator yields is the decoding of some
record the channel produced. -/
lemma next_ok_shape (l : List Scheme.ReadOutcome)
    (x : Except Errno Scheme.RawEvent) (rest : List Scheme.ReadOutcome)
    (h : Scheme.RawEventQueue.next l = some (some x, rest)) :
    (∃ ev, x = Except.ok (Scheme.decodeRaw ev)) ∨
      (∃ e, x = Except.error e ∧ e ≠ EINTR) := by
  rw [next_eq_skip] at h
  cases hs : Scheme.skipEintr l with
  | nil => rw [hs] at h; exact absurd h (by simp)
  | cons y tl =>
    rw [hs] at h
    cases y with
    | eof => simp at h
    | filled ev =>
      simp only [Option.some.injEq, Prod.mk.injEq] at h
      exact Or.inl ⟨ev, h.1.symm⟩
    | err e =>
      simp only [Option.some.injEq, Prod.mk.injEq] at h
      exact Or.inr ⟨e, h.1.symm, skipEintr_head_err l e tl hs⟩

/-- Closed form of the scheme-side conversion to kernel flags: both kernel
bits are set from `contains(READ)` (lib.rs:36), so the result is 3 when the
input contains READ and 0 otherwise - WRITE alone also converts to 0. -/
lemma flagsTo_eq (v : Nat) :
    Scheme.eventFlagsToSyscall v
      = if containsBits v Scheme.EventFlags.READ then 3 else 0 := by
  cases hb : containsBits v Scheme.EventFlags.READ <;>
    simp [Scheme.eventFlagsToSyscall, setBits, hb,
      Scheme.SysFlags.EVENT_READ, Scheme.SysFlags.EVENT_WRITE]

lemma and_three_idem (w : Nat) : (w &&& 3) &&& 3 = w &&& 3 := by
  have h : (3 : Nat) &&& 3 = 3 := by decide
  rw [Nat.land_assoc, h]

/-- The decoded event keeps the source id and the tag and masks the flags to
the readiness bits. -/
lemma decodeRaw_eq (ev : Scheme.SysEvent) :
    Scheme.decodeRaw ev =
      { fd := ev.id, flags := ev.flags &&& 3, user_data := ev.data } := by
  simp [Scheme.decodeRaw, flagsFrom_eq]

/-- Iterating the raw queue over a channel of `recs.length` filled records
followed by end-of-stream yields exactly the decoded records in order. -/
lemma collectFuel_batch (recs : List Scheme.SysEvent) (fuel : Nat) :
    Scheme.collectFuel (recs.length + fuel)
        (recs.map Scheme.ReadOutcome.filled ++ [Scheme.ReadOutcome.eof])
      = recs.map (fun ev => Except.ok (Scheme.decodeRaw ev)) := by
  induction recs generalizing fuel with
  | nil =>
    cases fuel with
    | zero => rfl
    | succ k => simp [Scheme.collectFuel, Scheme.RawEventQueue.next]
  | cons ev tl ih =>
    have h : tl.length + 1 + fuel = (tl.length + fuel) + 1 := by omega
    simp only [List.length_cons, List.map_cons, List.cons_append, h]
    simp [Scheme.collectFuel, Scheme.RawEventQueue.next, ih fuel]

lemma collect_batch (recs : List Scheme.SysEvent) :
    Scheme.collect (recs.map Scheme.ReadOutcome.filled ++ [Scheme.ReadOutcome.eof])
      = recs.map (fun ev => Except.ok (Scheme.decodeRaw ev)) := by
  unfold Scheme.collect
  have hl : (recs.map Scheme.ReadOutcome.filled
      ++ [Scheme.ReadOutcome.eof]).length = recs.length + 1 := by simp
  rw [hl]
  exact collectFuel_batch recs 1

/-- Every successful event the raw iterator ever yields has its flags inside
the readiness mask. -/
lemma collectFuel_ok_masked (fuel : Nat) (l : List Scheme.ReadOutcome) :
    ∀ x ∈ Scheme.collectFuel fuel l, ∀ ev : Scheme.RawEvent,
      x = Except.ok ev → ev.flags &&& 3 = ev.flags := by
  induction fuel generalizing l with
  | zero => simp [Scheme.collectFuel]
  | succ k ih =>
    cases h : Scheme.RawEventQueue.next l with
    | none => simp [Scheme.collectFuel, h]
    | some p =>
      obtain ⟨res, rest⟩ := p
      cases res with
      | none => simp [Scheme.collectFuel, h]
      | some x =>
        intro y hy ev hev
        rw [Scheme.collectFuel] at hy
        rw [h] at hy
        simp only [List.mem_cons] at hy
        cases hy with
        | inl hyx =>
          rcases next_ok_shape l x rest h with ⟨ev0, hx⟩ | ⟨e, hx, _⟩
          · have hev0 : ev = Scheme.decodeRaw ev0 := by
              rw [hyx, hx] at hev
              exact (Except.ok.inj hev).symm
            rw [hev0]
            simp [decodeRaw_eq, and_three_idem]
          · rw [hyx, hx] at hev
            simp at hev
        | inr hyt => exact ih rest y hyt ev hev

/-- C1: subscribe writes one record with source-id `fd` and tag `t`, but the
kernel flags do not request WRITE readiness iff `F` contains WRITE: the
conversion (lib.rs:36) sets `EVENT_WRITE` from `F.contains(READ)`, so at the
failing input `F = WRITE` the record written carries empty kernel flags,
while at `F = READ` it requests both READ and WRITE readiness. -/
theorem c1_subscribe_write_flag_slip :
    (Scheme.RawEventQueue.subscribe (Except.ok 32) 5 7 Scheme.EventFlags.WRITE).2
        = [{ id := 5, flags := 0, data := 7 }]
  ∧ containsBits Scheme.EventFlags.WRITE Scheme.EventFlags.WRITE = true
  ∧ containsBits 0 Scheme.SysFlags.EVENT_WRITE = false
  ∧ (Scheme.RawEventQueue.subscribe (Except.ok 32) 5 7 Scheme.EventFlags.READ).2
        = [{ id := 5, flags := 3, data := 7 }] := by
  decide

/-- C2: a channel of `N` successfully read records decodes to exactly `N`
events in input order; each event keeps the record's source id and tag, its
flags are the record's readiness bits, and the typed queue additionally puts
the tag through `from_user_data`. -/
theorem c2_batch_decode_order :
    (∀ recs : List Scheme.SysEvent,
      Scheme.collect (recs.map Scheme.ReadOutcome.filled ++ [Scheme.ReadOutcome.eof])
        = recs.map (fun ev => Except.ok (Scheme.decodeRaw ev)))
  ∧ (∀ recs : List Scheme.SysEvent,
      (Scheme.collect (recs.map Scheme.ReadOutcome.filled
          ++ [Scheme.ReadOutcome.eof])).length = recs.length)
  ∧ (∀ ev : Scheme.SysEvent, Scheme.decodeRaw ev
        = { fd := ev.id, flags := ev.flags &&& 3, user_data := ev.data })
  ∧ (∀ (U : Type) (fromU : Nat → U) (ev : Scheme.SysEvent)
        (rest : List Scheme.ReadOutcome),
      Scheme.EventQueue.next fromU (Scheme.ReadOutcome.filled ev :: rest)
        = some (some (Except.ok
            { user_data := fromU ev.data, flags := ev.flags &&& 3, fd := ev.id }),
            rest)) := by
  refine ⟨collect_batch, ?_, decodeRaw_eq, ?_⟩
  · intro recs
    rw [collect_batch]
    simp
  · intro U fromU ev rest
    simp [Scheme.EventQueue.next, Scheme.RawEventQueue.next, decodeRaw_eq,
      Except.map]

/-- C3 counterexample: in the FFI wrapper (wrappers.rs:32-47) an interrupted
read is not retried; the EINTR error of the channel read is returned to the
caller. -/
theorem c3_counterexample :
    Ffi.RawEventQueue.next_event (Ffi.GetEventsOutcome.err EINTR)
      = some (Except.error EINTR) := rfl

/-- C3 (amended): in the scheme-based queue every EINTR outcome is retried
and never yielded, and every other error aborts the read and is yielded
unchanged; the FFI wrapper returns every error of the channel read, EINTR
included, to the caller. -/
theorem c3_eintr_policy :
    (∀ rest : List Scheme.ReadOutcome,
      Scheme.RawEventQueue.next (Scheme.ReadOutcome.err EINTR :: rest)
        = Scheme.RawEventQueue.next rest)
  ∧ (∀ (l rest : List Scheme.ReadOutcome) (e : Errno),
      Scheme.RawEventQueue.next l = some (some (Except.error e), rest) →
        e ≠ EINTR)
  ∧ (∀ (e : Errno) (rest : List Scheme.ReadOutcome), e ≠ EINTR →
      Scheme.RawEventQueue.next (Scheme.ReadOutcome.err e :: rest)
        = some (some (Except.error e), rest))
  ∧ (∀ e : Errno, Ffi.RawEventQueue.next_event (Ffi.GetEventsOutcome.err e)
        = some (Except.error e)) := by
  refine ⟨?_, ?_, ?_, fun e => rfl⟩
  · intro rest
    simp [Scheme.RawEventQueue.next]
  · intro l rest e h
    rcases next_ok_shape l (Except.error e) rest h with ⟨ev0, hx⟩ | ⟨e2, hx, hne⟩
    · simp at hx
    · have he2 : e = e2 := by simpa using hx
      exact he2 ▸ hne
  · intro e rest he
    simp [Scheme.RawEventQueue.next, he]

/-- C3 witness: a non-EINTR error (errno 5) at the head of the channel is
returned unchanged. -/
theorem c3_eintr_policy_witness :
    Scheme.RawEventQueue.next [Scheme.ReadOutcome.err 5]
      = some (some (Except.error 5), []) :=
  c3_eintr_policy.2.2.1 5 [] (by decide)

/-- C4 counterexample: the scheme-side `unsubscribe(fd, flags)` (lib.rs:68-75)
does not clear the flags of the record it writes; with `flags = READ` the
record carries kernel flags 3, not empty flags (it clears the tag instead). -/
theorem c4_counterexample :
    (Scheme.RawEventQueue.unsubscribe (Except.ok 32) 5 Scheme.EventFlags.READ).2
        = [{ id := 5, flags := 3, data := 0 }]
  ∧ (3 : Nat) ≠ 0 := by
  decide

/-- C4 (amended): the FFI wrapper's `unsubscribe(fd)` writes one record of the
subscribe shape with flags cleared and tag 0 and propagates the channel
error; the scheme-based `unsubscribe(fd, flags)` writes one record of the
subscribe shape with the tag cleared to 0 and the converted caller-supplied
flags, and that record's kernel flags are empty exactly when the caller's
flags do not contain READ: the conversion (lib.rs:36) maps both empty and
WRITE-only flags to empty kernel flags and READ-containing flags to
READ and WRITE. -/
theorem c4_unsubscribe_record :
    (∀ (r : Except Errno Nat) (fd : Nat),
      (Ffi.RawEventQueue.unsubscribe r fd).2
        = [{ fd := fd, flags := 0, user_data := 0 }])
  ∧ (∀ (e : Errno) (fd : Nat),
      (Ffi.RawEventQueue.unsubscribe (Except.error e) fd).1 = Except.error e)
  ∧ (∀ (n fd : Nat),
      (Ffi.RawEventQueue.unsubscribe (Except.ok n) fd).1 = Except.ok ())
  ∧ (∀ (w : Except Errno Nat) (fd flags : Nat),
      (Scheme.RawEventQueue.unsubscribe w fd flags).2
        = [{ id := fd, flags := Scheme.eventFlagsToSyscall flags, data := 0 }])
  ∧ (∀ (e : Errno) (fd flags : Nat),
      (Scheme.RawEventQueue.unsubscribe (Except.error e) fd flags).1
        = Except.error e)
  ∧ (∀ flags : Nat, Scheme.eventFlagsToSyscall flags
        = if containsBits flags Scheme.EventFlags.READ then 3 else 0)
  ∧ (∀ (w : Except Errno Nat) (fd flags : Nat),
      ((Scheme.RawEventQueue.unsubscribe w fd flags).2
          = [{ id := fd, flags := 0, data := 0 }]
        ↔ containsBits flags Scheme.EventFlags.READ = false)) := by
  refine ⟨fun r fd => rfl, fun e fd => rfl, fun n fd => rfl,
    fun w fd flags => rfl, fun e fd flags => rfl, flagsTo_eq, ?_⟩
  intro w fd flags
  cases hb : containsBits flags Scheme.EventFlags.READ <;>
    simp [Scheme.RawEventQueue.unsubscribe, flagsTo_eq, hb]

/-- C5 counterexample: in the FFI wrapper a zero record count from the
channel read does not end the iterator; `next_event` fails its count
assertion and does not return a value at all. -/
theorem c5_counterexample :
    Ffi.RawEventQueue.next_event
        (Ffi.GetEventsOutcome.ok 0 { fd := 0, user_data := 0, flags := 0 })
      = none := by
  decide

/-- C5 (amended): the scheme-based iterator ends (yields no item) exactly
when the read - after EINTR retries - returns zero, and otherwise yields an
event or an error; the FFI wrapper's iterator never signals end-of-stream,
and a zero-count read fails its assertion instead. -/
theorem c5_zero_read_policy :
    (∀ l : List Scheme.ReadOutcome,
      Scheme.RawEventQueue.next l =
        match Scheme.skipEintr l with
        | [] => none
        | Scheme.ReadOutcome.eof :: rest => some (none, rest)
        | Scheme.ReadOutcome.filled ev :: rest =>
          some (some (Except.ok (Scheme.decodeRaw ev)), rest)
        | Scheme.ReadOutcome.err e :: rest =>
          some (some (Except.error e), rest))
  ∧ (∀ (l rest : List Scheme.ReadOutcome),
      (Scheme.RawEventQueue.next l = some (none, rest) ↔
        Scheme.skipEintr l = Scheme.ReadOutcome.eof :: rest))
  ∧ (∀ o : Ffi.GetEventsOutcome, Ffi.iterNext o ≠ some none)
  ∧ (∀ ev : Ffi.RawEventV1,
      Ffi.RawEventQueue.next_event (Ffi.GetEventsOutcome.ok 0 ev) = none) := by
  refine ⟨next_eq_skip, ?_, ?_, fun ev => rfl⟩
  · intro l rest
    rw [next_eq_skip]
    cases hs : Scheme.skipEintr l with
    | nil => simp
    | cons y tl => cases y <;> simp
  · intro o
    cases o with
    | err e => simp [Ffi.iterNext, Ffi.RawEventQueue.next_event]
    | ok n ev =>
      by_cases hn : n = 1 <;>
        simp [Ffi.iterNext, Ffi.RawEventQueue.next_event, hn]

/-- C6 counterexample: the declared layout of `RawEventV1` (fd, user_data,
flags) differs from the claimed layout (source-id, flags, tag) on a 64-bit
word. -/
theorem c6_counterexample :
    Ffi.rawEventV1Layout 64 ≠ Ffi.specRecordLayout 64 := by
  decide

/-- C6 (amended): the record has exactly the three claimed fields with the
claimed widths - source-id and tag word-size, flags 32-bit - but in the
layout {source-id, tag, flags}: the tag precedes the flags. -/
theorem c6_record_layout :
    (∀ w : Nat, Ffi.rawEventV1Layout w
        = [("fd", w), ("user_data", w), ("flags", 32)])
  ∧ (∀ w : Nat, List.Perm (Ffi.rawEventV1Layout w) (Ffi.specRecordLayout w)) := by
  refine ⟨fun w => rfl, fun w => ?_⟩
  unfold Ffi.rawEventV1Layout Ffi.specRecordLayout
  exact List.Perm.cons _ (List.Perm.swap _ _ _)

/-- C7: both flag types define READ = 1 and WRITE = 2, and a record's decoded
flags indicate READ (resp. WRITE) readiness exactly when the record's kernel
flags contain the corresponding bit. -/
theorem c7_flag_bit_values :
    Scheme.EventFlags.READ = 1 ∧ Scheme.EventFlags.WRITE = 2
  ∧ Ffi.EventFlags.READ = 1 ∧ Ffi.EventFlags.WRITE = 2
  ∧ Scheme.EventFlags.READ = Ffi.EventFlags.READ
  ∧ Scheme.EventFlags.WRITE = Ffi.EventFlags.WRITE
  ∧ (∀ v : Nat, containsBits (Scheme.eventFlagsFromSyscall v) Scheme.EventFlags.READ
      = containsBits v Scheme.SysFlags.EVENT_READ)
  ∧ (∀ v : Nat, containsBits (Scheme.eventFlagsFromSyscall v) Scheme.EventFlags.WRITE
      = containsBits v Scheme.SysFlags.EVENT_WRITE) := by
  have h31 : (3 : Nat) &&& 1 = 1 := by decide
  have h32 : (3 : Nat) &&& 2 = 2 := by decide
  refine ⟨rfl, rfl, rfl, rfl, rfl, rfl, ?_, ?_⟩
  · intro v
    simp [containsBits, flagsFrom_eq, Scheme.EventFlags.READ,
      Scheme.SysFlags.EVENT_READ, Nat.land_assoc, h31]
  · intro v
    simp [containsBits, flagsFrom_eq, Scheme.EventFlags.WRITE,
      Scheme.SysFlags.EVENT_WRITE, Nat.land_assoc, h32]

/-- C8: the conversion from kernel flags keeps only the READ and WRITE bits,
and consequently every successful event the scheme-based iterator yields has
flags contained in READ ||| WRITE. -/
theorem c8_flags_within_read_write :
    (∀ v : Nat, Scheme.eventFlagsFromSyscall v
        &&& (Scheme.EventFlags.READ ||| Scheme.EventFlags.WRITE)
      = Scheme.eventFlagsFromSyscall v)
  ∧ (∀ l : List Scheme.ReadOutcome,
      ((Scheme.collect l).all (fun x =>
        match x with
        | Except.ok ev =>
          ev.flags &&& (Scheme.EventFlags.READ ||| Scheme.EventFlags.WRITE)
            == ev.flags
        | Except.error _ => true)) = true) := by
  have h3 : Scheme.EventFlags.READ ||| Scheme.EventFlags.WRITE = 3 := by decide
  refine ⟨?_, ?_⟩
  · intro v
    rw [h3, flagsFrom_eq]
    exact and_three_idem v
  · intro l
    rw [List.all_eq_true]
    intro x hx
    cases x with
    | ok ev =>
      have hm := collectFuel_ok_masked l.length l (Except.ok ev)
        (by simpa [Scheme.collect] using hx) ev rfl
      simp [h3, hm]
    | error e => simp

/-- C9: for the `user_data!` enum with `n` variants, `into_user_data` is the
dense ordinal of the variant, `from_user_data` inverts it on every variant,
and the bounds assertion in `from_user_data raw` holds exactly when
`raw < n`. -/
theorem c9_user_data_roundtrip :
    ∀ n : Nat,
      (∀ v : Fin n, intoUserData v = v.val)
    ∧ (∀ v : Fin n, fromUserData n (intoUserData v) = some v)
    ∧ (∀ raw : Nat, (fromUserData n raw).isSome = true ↔ raw < n)
    ∧ (∀ raw : Nat, fromUserData n raw = none ↔ n ≤ raw) := by
  intro n
  refine ⟨fun v => rfl, ?_, ?_, ?_⟩
  · intro v
    simp [fromUserData, intoUserData, v.isLt]
  · intro raw
    by_cases h : raw < n <;> simp [fromUserData, h]
  · intro raw
    by_cases h : raw < n
    · simp [fromUserData, h]
    · simp [fromUserData, h]
      omega

/-- C10: the typed queues are thin refinements of the raw queues: typed
subscribe delegates to raw subscribe with the encoded tag, and every typed
item is the raw item with `from_user_data` applied to `user_data` and the
`fd` and `flags` fields unchanged, in both variants. -/
theorem c10_typed_refinement :
    (∀ (U : Type) (into : U → Nat) (w : Except Errno Nat) (fd : Nat) (data : U)
        (flags : Nat),
      Scheme.EventQueue.subscribe into w fd data flags
        = Scheme.claimTypedSubscribe into w fd data flags)
  ∧ (∀ (U : Type) (fromU : Nat → U) (l : List Scheme.ReadOutcome),
      Scheme.EventQueue.next fromU l = Scheme.claimTypedNext fromU l)
  ∧ (∀ (U : Type) (fromU : Nat → U) (l : List Scheme.ReadOutcome)
        (raw : Scheme.RawEvent) (rest : List Scheme.ReadOutcome),
      Scheme.RawEventQueue.next l = some (some (Except.ok raw), rest) →
        Scheme.EventQueue.next fromU l
          = some (some (Except.ok
              { user_data := fromU raw.user_data, flags := raw.flags,
                fd := raw.fd }), rest))
  ∧ (∀ (U : Type) (into : U → Nat) (r : Except Errno Nat) (fd : Nat) (data : U)
        (flagsBits : Nat),
      Ffi.EventQueue.subscribe into r fd data flagsBits
        = Ffi.RawEventQueue.subscribe r fd (into data) flagsBits)
  ∧ (∀ (U : Type) (fromU : Nat → U) (o : Ffi.GetEventsOutcome)
        (raw : Ffi.RawEventV1),
      Ffi.RawEventQueue.next_event o = some (Except.ok raw) →
        Ffi.EventQueue.next fromU o
          = some (some (Except.ok
              { user_data := fromU raw.user_data, flags := raw.flags,
                fd := raw.fd }))) := by
  refine ⟨fun U into w fd data flags => rfl, ?_, ?_, fun U into r fd data fb => rfl, ?_⟩
  · intro U fromU l
    cases h : Scheme.RawEventQueue.next l with
    | none => simp [Scheme.EventQueue.next, Scheme.claimTypedNext, h]
    | some p =>
      obtain ⟨res, rest⟩ := p
      simp [Scheme.EventQueue.next, Scheme.claimTypedNext, h]
  · intro U fromU l raw rest h
    simp [Scheme.EventQueue.next, h, Except.map]
  · intro U fromU o raw h
    simp [Ffi.EventQueue.next, Ffi.iterNext, h, Except.map]

/-- C10 witness: over a one-record channel, the typed queue (with the
identity decoding) yields the raw event with its tag decoded and fd and
flags unchanged. -/
theorem c10_typed_refinement_witness :
    Scheme.EventQueue.next (fun x : Nat => x)
        [Scheme.ReadOutcome.filled { id := 3, flags := 7, data := 9 }]
      = some (some (Except.ok { user_data := 9, flags := 3, fd := 3 }), []) :=
  c10_typed_refinement.2.2.1 Nat (fun x => x)
    [Scheme.ReadOutcome.filled { id := 3, flags := 7, data := 9 }]
    { fd := 3, flags := 3, user_data := 9 } [] (by decide)

end RedoxEvent
